import Mathlib

/-!
Verification of the movie-analytics platform's cleaning pipeline
(`src/processing/preprocess.py`, `MovieDataPreprocessor.clean_data`) and
analytics engine (`src/processing/analytics.py`, `MovieAnalytics`) against its
natural-language specification.

Modelling conventions (shallow embedding):
* a pandas DataFrame is a `List` of records; column-wise operations on
  independent rows are translated row-wise;
* text is `List Char`; Python `str.strip` / `str.lower` / `str.split(",")`
  are translated by `strip` / `lower` / `splitComma` below;
* float columns are modelled as `ℚ`; a missing or unparseable cell
  (`NaN` after `pd.to_datetime(..., errors="coerce")` or
  `pd.to_numeric(..., errors="coerce")`) is `none` in the raw record;
* a float expression whose denominator is zero (pandas `0/0 → NaN`,
  `x/0 → ±inf`) is modelled as `none : Option ℚ`.
-/

/-- Text is modelled as a list of characters. -/
abbrev Str := List Char

/-- The whitespace test used by Python's `str.strip()` (space, tab, newline,
carriage return, vertical tab, form feed). -/
def wsp (c : Char) : Bool :=
  c = ' ' || c = '\t' || c = '\n' || c = '\r' || c = '\x0b' || c = '\x0c'

/-- Left part of Python's `str.strip()`: drop leading whitespace. -/
def lstrip (s : Str) : Str := s.dropWhile wsp

/-- Python's `str.strip()`: drop leading and trailing whitespace. -/
def strip (s : Str) : Str := ((lstrip s).reverse.dropWhile wsp).reverse

/-- Python's `str.lower()` (restricted to basic latin letters, the alphabet
relevant to the dataset's fields). -/
def lower (s : Str) : Str := s.map Char.toLower

/-- Python's `str.split(",")`: split on every comma; always returns at least
one (possibly empty) segment. -/
def splitComma : Str → List Str
  | [] => [[]]
  | c :: rest =>
    match splitComma rest with
    | [] => [[]]
    | s :: ss => if c = ',' then [] :: s :: ss else (c :: s) :: ss

/-- The sentinel `"unknown"` substituted for a missing language
(`fillna("unknown")` in `clean_data`). -/
def unknownLow : Str := "unknown".toList

/-- The sentinel `"Unknown"` substituted for a missing or blank genre
(`fillna("Unknown")` and `.replace("", "Unknown")` in `clean_data`). -/
def unknownCap : Str := "Unknown".toList

/-- A calendar date as produced by `pd.to_datetime`. -/
structure Date where
  year : Int
  month : Nat
  day : Nat
deriving DecidableEq, Repr

/-- One row of the raw CSV (`RawRecord` of the spec): `none` in a field means
the cell is missing or fails to parse under the corresponding coercion
(`pd.to_datetime(..., errors="coerce")` / `pd.to_numeric(..., errors="coerce")`
/ a `NaN` caught by `fillna`). -/
structure RawRecord where
  title : Str
  releaseDate : Option Date
  popularity : Option ℚ
  voteCount : Option ℚ
  voteAverage : Option ℚ
  originalLanguage : Option Str
  genre : Option Str
deriving DecidableEq, Repr

/-- One row of the cleaned, genre-exploded table (`CanonicalRecord` of the
spec). -/
structure CanonicalRecord where
  title : Str
  releaseDate : Date
  popularity : ℚ
  voteCount : ℚ
  voteAverage : ℚ
  originalLanguage : Str
  genre : Str
deriving DecidableEq, Repr

/-- The records `clean_data` produces from one raw row, mirroring the row-wise
effect of its column operations in source order:
* `to_datetime` + `dropna(subset=["Release_Date"])`: a row whose date is
  `none` yields no records;
* `to_numeric(...).fillna(0)`: a numeric field that is `none` becomes `0`;
* `Original_Language.fillna("unknown").astype(str).str.lower().str.strip()`;
* `Genre.fillna("Unknown").astype(str).str.split(",")`, each element
  stripped, then `explode("Genre")` (one record per segment) and
  `.replace("", "Unknown")` on the exploded column. -/
def cleanRow (r : RawRecord) : List CanonicalRecord :=
  match r.releaseDate with
  | none => []
  | some d =>
    ((splitComma (r.genre.getD unknownCap)).map strip).map (fun g =>
      { title := r.title
        releaseDate := d
        popularity := r.popularity.getD 0
        voteCount := r.voteCount.getD 0
        voteAverage := r.voteAverage.getD 0
        originalLanguage := strip (lower (r.originalLanguage.getD unknownLow))
        genre := if g = [] then unknownCap else g })

/-- Ascending comparison on `(Release_Date, Title)`, the key of the final
`sort_values(by=["Release_Date", "Title"])` in `clean_data`.  Dates compare
lexicographically on (year, month, day), titles lexicographically by
character code. -/
def strLtB : Str → Str → Bool
  | [], [] => false
  | [], _ :: _ => true
  | _ :: _, [] => false
  | a :: s, b :: t => if a < b then true else if b < a then false else strLtB s t

/-- Strict ascending comparison on dates (year, then month, then day). -/
def dateLtB (a b : Date) : Bool :=
  if a.year ≠ b.year then decide (a.year < b.year)
  else if a.month ≠ b.month then decide (a.month < b.month)
  else decide (a.day < b.day)

/-- Row order of the canonical table: release date ascending, then title
ascending. -/
def recLE (a b : CanonicalRecord) : Prop :=
  (dateLtB a.releaseDate b.releaseDate ||
    (a.releaseDate = b.releaseDate && strLtB a.title b.title) ||
    (a.releaseDate = b.releaseDate && a.title = b.title)) = true

instance : DecidableRel recLE := fun _ _ => inferInstanceAs (Decidable (_ = true))

/-- `MovieDataPreprocessor.clean_data`: drop rows with unparseable dates,
coerce numerics, normalize language, split / strip / explode genres,
replace blank genres with the sentinel, and sort by (date, title). -/
def clean_data (df : List RawRecord) : List CanonicalRecord :=
  List.insertionSort recLE (df.flatMap cleanRow)

/-- Pandas `DataFrame.head(n)`: the first `n` rows when `n ≥ 0`, and all but
the last `|n|` rows when `n < 0` (Python slice `[:n]`). -/
def dfHead (n : Int) (l : List α) : List α :=
  if 0 ≤ n then l.take n.toNat else l.take (l.length - (-n).toNat)

/-- Pandas `drop_duplicates(subset=[...])` keeping the first row for each key
(`keep="first"`, the default): `seen` accumulates the keys already emitted. -/
def dedupByKey (key : α → Str) (seen : List Str) : List α → List α
  | [] => []
  | r :: t =>
    if key r ∈ seen then dedupByKey key seen t
    else r :: dedupByKey key (key r :: seen) t

/-- Descending-popularity order used by
`sort_values("Popularity", ascending=False)`. -/
def popGe (a b : CanonicalRecord) : Prop := b.popularity ≤ a.popularity

instance : DecidableRel popGe := fun _ _ => inferInstanceAs (Decidable (_ ≤ _))

/-- `MovieAnalytics.get_top_popular_movies`: sort by popularity descending,
drop duplicate titles keeping the first occurrence, take the first `limit`
rows.  The final column projection
`[["Title", "Popularity", "Vote_Average", "Vote_Count"]]` is omitted: it only
hides columns and affects no claimed field. -/
def get_top_popular_movies (df : List CanonicalRecord) (limit : Int) :
    List CanonicalRecord :=
  dfHead limit (dedupByKey (fun r => r.title) [] (List.insertionSort popGe df))

/-- Floor of a rational, kernel-computable (`Int.fdiv` is floor division). -/
def qfloor (q : ℚ) : Int := Int.fdiv q.num q.den

/-- Pandas `Series.quantile(0.70)` with the default linear interpolation:
for the sorted values `s` of length `n`, with `h = 0.7 * (n - 1)`,
`i = ⌊h⌋`, the result is `s[i] + (h - i) * (s[i+1] - s[i])`.
Pandas returns `NaN` on an empty series; `clean_data`'s caller only reaches
this with a non-empty series, and the empty case is mapped to `0` here. -/
def quantile70 (l : List ℚ) : ℚ :=
  let s := List.insertionSort (fun a b : ℚ => a ≤ b) l
  if s.length = 0 then 0
  else
    let h : ℚ := ((s.length : ℚ) - 1) * 7 / 10
    let i : Nat := (qfloor h).toNat
    s.getD i 0 + (h - (i : ℚ)) * (s.getD (i + 1) 0 - s.getD i 0)

/-- Pandas `Series.mean` (the caller guarantees a non-empty series; the empty
case is mapped to `0` here, pandas would give `NaN`). -/
def qmean (l : List ℚ) : ℚ := l.sum / (l.length : ℚ)

/-- `MovieAnalytics.calculate_weighted_rating`: with `v` the record's
`Vote_Count`, `R` its `Vote_Average`, `m` the 0.70 quantile of `Vote_Count`
over `df` and `C` the mean of `Vote_Average` over `df`, each record gets
`(v / (v + m)) * R + (m / (v + m)) * C`.  The source has no guard for
`v + m = 0`; in that case the float division produces a non-finite value
(`0/0 → NaN`), modelled as `none`. -/
def calculate_weighted_rating (df : List CanonicalRecord) : List (Option ℚ) :=
  let m := quantile70 (df.map (fun r => r.voteCount))
  let C := qmean (df.map (fun r => r.voteAverage))
  df.map (fun r =>
    if r.voteCount + m = 0 then none
    else some (r.voteCount / (r.voteCount + m) * r.voteAverage +
               m / (r.voteCount + m) * C))

/-- One row of the `get_top_rated_movies` result
(`Title`, `Weighted_Rating`, `Vote_Average`, `Vote_Count`). -/
structure RatedRow where
  title : Str
  weightedRating : Option ℚ
  voteAverage : ℚ
  voteCount : ℚ
deriving DecidableEq, Repr

/-- Descending order on the `Weighted_Rating` column: pandas
`sort_values(..., ascending=False)` places `NaN` last
(`na_position="last"`). -/
def wrGeB : Option ℚ → Option ℚ → Bool
  | some x, some y => decide (y ≤ x)
  | some _, none => true
  | none, none => true
  | none, some _ => false

/-- Order on (record, weighted-rating) pairs used to sort the filtered
frame. -/
def wrRowGe (a b : CanonicalRecord × Option ℚ) : Prop := wrGeB a.2 b.2 = true

instance : DecidableRel wrRowGe := fun _ _ => inferInstanceAs (Decidable (_ = true))

/-- Round half to even (the rounding of numpy / pandas `round`). -/
def roundHalfEven (x : ℚ) : Int :=
  let f := qfloor x
  let r := x - (f : ℚ)
  if r < 1 / 2 then f
  else if 1 / 2 < r then f + 1
  else if f % 2 = 0 then f else f + 1

/-- Pandas `.round(2)`. -/
def round2 (x : ℚ) : ℚ := (roundHalfEven (100 * x) : ℚ) / 100

/-- `MovieAnalytics.get_top_rated_movies`: filter to
`Vote_Count >= min_votes`; empty filter result short-circuits to an empty
frame; otherwise compute the weighted rating, sort by it descending, drop
duplicate titles keeping the first, take the first `limit` rows and round the
numeric columns to 2 decimals. -/
def get_top_rated_movies (df : List CanonicalRecord) (limit : Int)
    (min_votes : ℚ) : List RatedRow :=
  let filtered := df.filter (fun r => decide (min_votes ≤ r.voteCount))
  if filtered.isEmpty then []
  else
    let rows := filtered.zip (calculate_weighted_rating filtered)
    (dfHead limit
        (dedupByKey (fun p => p.1.title) []
          (List.insertionSort wrRowGe rows))).map
      (fun p =>
        { title := p.1.title
          weightedRating := p.2.map round2
          voteAverage := round2 p.1.voteAverage
          voteCount := round2 p.1.voteCount })

/-- Ascending order on the `Year` column of the per-year aggregate. -/
def yearRowLe (a b : Int × Nat) : Prop := a.1 ≤ b.1

instance : DecidableRel yearRowLe := fun _ _ => inferInstanceAs (Decidable (_ ≤ _))

/-- `MovieAnalytics.get_movies_per_year`: derive `Year` from `Release_Date`,
group by year, count distinct titles per group (`nunique`), sort by year
ascending. -/
def get_movies_per_year (df : List CanonicalRecord) : List (Int × Nat) :=
  List.insertionSort yearRowLe
    (((df.map (fun r => r.releaseDate.year)).dedup).map (fun y =>
      (y, ((df.filter (fun r => decide (r.releaseDate.year = y))).map
            (fun r => r.title)).dedup.length)))

/-- Descending order on the `movie_count` column of the language aggregate. -/
def countRowGe (a b : Str × Nat) : Prop := b.2 ≤ a.2

instance : DecidableRel countRowGe := fun _ _ => inferInstanceAs (Decidable (_ ≤ _))

/-- `MovieAnalytics.get_language_diversity`: group by `Original_Language`,
count distinct titles per group (`nunique`), sort by count descending. -/
def get_language_diversity (df : List CanonicalRecord) : List (Str × Nat) :=
  List.insertionSort countRowGe
    (((df.map (fun r => r.originalLanguage)).dedup).map (fun lang =>
      (lang, ((df.filter (fun r => decide (r.originalLanguage = lang))).map
            (fun r => r.title)).dedup.length)))

/-- One access to the `MovieAnalytics.df` property.  `cached` is the
instance's `_df` field (`none` before a successful load), `file` is the
current state of the cleaned CSV (`none` when absent or unreadable).  The
property returns the cached frame if present; otherwise `_load_data` reads
the file, caching it on success and raising `FileNotFoundError` (modelled as
`Except.error ()`) on failure, in which case `_df` stays `none`. -/
def dfAccess (cached : Option (List CanonicalRecord))
    (file : Option (List CanonicalRecord)) :
    Option (List CanonicalRecord) × Except Unit (List CanonicalRecord) :=
  match cached with
  | some t => (some t, Except.ok t)
  | none =>
    match file with
    | some t => (some t, Except.ok t)
    | none => (none, Except.error ())

/-- Validation message produced by the HTTP boundary when a query parameter
violates its declared bounds. -/
def validationMsg : String := "invalid query parameter"

/-- FastAPI validation of `limit : int = Query(10, ge=1, le=50)` in
`src/api/routes.py`. -/
def queryLimitValid (l : Int) : Bool := decide (1 ≤ l) && decide (l ≤ 50)

/-- FastAPI validation of `min_votes : int = Query(500, ge=0)`. -/
def queryMinVotesValid (mv : ℚ) : Bool := decide (0 ≤ mv)

/-- The `/movies/most-popular` route: FastAPI rejects an out-of-bounds
`limit` before the handler runs; otherwise the handler calls
`get_top_popular_movies`. -/
def route_most_popular (df : List CanonicalRecord) (l : Int) :
    Except String (List CanonicalRecord) :=
  if queryLimitValid l then Except.ok (get_top_popular_movies df l)
  else Except.error validationMsg

/-- The `/movies/top-rated` route: FastAPI rejects an out-of-bounds `limit`
or a negative `min_votes` before the handler runs; otherwise the handler
calls `get_top_rated_movies`. -/
def route_top_rated (df : List CanonicalRecord) (l : Int) (mv : ℚ) :
    Except String (List RatedRow) :=
  if queryLimitValid l && queryMinVotesValid mv then
    Except.ok (get_top_rated_movies df l mv)
  else Except.error validationMsg

/-- The raw-record view of a canonical row, for re-running `clean_data` on
its own output (every field present and already valid). -/
def toRaw (c : CanonicalRecord) : RawRecord :=
  { title := c.title
    releaseDate := some c.releaseDate
    popularity := some c.popularity
    voteCount := some c.voteCount
    voteAverage := some c.voteAverage
    originalLanguage := some c.originalLanguage
    genre := some c.genre }

instance : IsTotal CanonicalRecord popGe :=
  ⟨fun a b => le_total b.popularity a.popularity⟩

instance : IsTrans CanonicalRecord popGe :=
  ⟨fun _ _ _ h1 h2 => le_trans h2 h1⟩

/-! ### Concrete fixtures used by witnesses and counterexamples -/

/-- A canonical record with `Vote_Count = 0`; with `min_votes = 0` the
filtered set `[zeroVoteRec]` has `m = quantile70 [0] = 0`, so `v + m = 0`. -/
def zeroVoteRec : CanonicalRecord :=
  { title := "Z".toList, releaseDate := ⟨2020, 1, 1⟩, popularity := 1,
    voteCount := 0, voteAverage := 7, originalLanguage := "en".toList,
    genre := "Drama".toList }

/-- A raw row whose genre field repeats the same genre twice. -/
def dupGenreRow : RawRecord :=
  { title := "D".toList, releaseDate := some ⟨2020, 1, 1⟩, popularity := some 1,
    voteCount := some 5, voteAverage := some 6,
    originalLanguage := some "en".toList,
    genre := some "Action,Action".toList }

/-- A small canonical table with three distinct titles. -/
def sampleTable : List CanonicalRecord :=
  [{ title := "P".toList, releaseDate := ⟨2019, 1, 1⟩, popularity := 3,
     voteCount := 30, voteAverage := 5, originalLanguage := "en".toList,
     genre := "Drama".toList },
   { title := "Q".toList, releaseDate := ⟨2020, 1, 1⟩, popularity := 2,
     voteCount := 20, voteAverage := 6, originalLanguage := "en".toList,
     genre := "Drama".toList },
   { title := "R".toList, releaseDate := ⟨2021, 1, 1⟩, popularity := 1,
     voteCount := 10, voteAverage := 7, originalLanguage := "fr".toList,
     genre := "Comedy".toList }]

/-- A raw row whose popularity cell parses to a negative number. -/
def negPopRow : RawRecord :=
  { title := "N".toList, releaseDate := some ⟨2020, 1, 1⟩,
    popularity := some (-1), voteCount := some 5, voteAverage := some 6,
    originalLanguage := some "en".toList, genre := some "Action".toList }

/-- The canonical record `clean_data` produces from `negPopRow`. -/
def negPopCleaned : CanonicalRecord :=
  { title := "N".toList, releaseDate := ⟨2020, 1, 1⟩, popularity := -1,
    voteCount := 5, voteAverage := 6, originalLanguage := "en".toList,
    genre := "Action".toList }

/-- A raw row with an unparseable release date. -/
def badDateRow : RawRecord :=
  { title := "B".toList, releaseDate := none, popularity := some 5,
    voteCount := some 10, voteAverage := some 9,
    originalLanguage := some "fr".toList, genre := some "Comedy".toList }

/-- A raw row with a valid date but no parseable numeric or categorical
cells. -/
def noNumRow : RawRecord :=
  { title := "M".toList, releaseDate := some ⟨2021, 6, 1⟩, popularity := none,
    voteCount := none, voteAverage := none, originalLanguage := none,
    genre := none }

/-- Two raw rows sharing one title, released in different years and
languages. -/
def kongRaw1 : RawRecord :=
  { title := "K".toList, releaseDate := some ⟨1933, 3, 2⟩, popularity := some 1,
    voteCount := some 5, voteAverage := some 6,
    originalLanguage := some "en".toList, genre := some "Action".toList }

/-- Companion row to `kongRaw1`: same title, different year and language. -/
def kongRaw2 : RawRecord :=
  { title := "K".toList, releaseDate := some ⟨2005, 12, 14⟩,
    popularity := some 2, voteCount := some 7, voteAverage := some 7,
    originalLanguage := some "fr".toList, genre := some "Action".toList }

/-- Canonical table holding one title under two years and two languages. -/
def kongTable : List CanonicalRecord := clean_data [kongRaw1, kongRaw2]

/-- Raw row for the weighted-rating monotonicity counterexample: high vote
count, low average. -/
def wrRawA : RawRecord :=
  { title := "A".toList, releaseDate := some ⟨2020, 1, 1⟩, popularity := some 5,
    voteCount := some 100, voteAverage := some 1,
    originalLanguage := some "en".toList, genre := some "Drama".toList }

/-- Raw row for the weighted-rating monotonicity counterexample: low vote
count, high average. -/
def wrRawB : RawRecord :=
  { title := "B".toList, releaseDate := some ⟨2021, 1, 1⟩, popularity := some 6,
    voteCount := some 10, voteAverage := some 10,
    originalLanguage := some "en".toList, genre := some "Drama".toList }

/-- Canonical table on which raising `minVotes` changes the ranking
parameters `m` and `C` and hence the truncated output population. -/
def wrTable : List CanonicalRecord := clean_data [wrRawA, wrRawB]

/-! ### Helper lemmas: stripping, lowercasing, splitting -/

theorem dropWhile_dropWhile (p : α → Bool) (l : List α) :
    (l.dropWhile p).dropWhile p = l.dropWhile p := by
  induction l with
  | nil => rfl
  | cons a t ih =>
    by_cases h : p a
    · simp [List.dropWhile_cons, h, ih]
    · simp [List.dropWhile_cons, h]

theorem exists_append_dropWhile (p : α → Bool) (l : List α) :
    ∃ z, l = z ++ l.dropWhile p := by
  induction l with
  | nil => exact ⟨[], rfl⟩
  | cons a t ih =>
    by_cases h : p a
    · obtain ⟨z, hz⟩ := ih
      exact ⟨a :: z, by simp [List.dropWhile_cons, h, ← hz]⟩
    · exact ⟨[], by simp [List.dropWhile_cons, h]⟩

theorem dropWhile_of_append_of_fixed (p : α → Bool) (w z : List α)
    (h : (w ++ z).dropWhile p = w ++ z) : w.dropWhile p = w := by
  cases w with
  | nil => rfl
  | cons a t =>
    have ha : p a = false := by
      by_contra hpa
      have hpa' : p a = true := by revert hpa; cases p a <;> simp
      have heq : ((a :: t) ++ z).dropWhile p = (t ++ z).dropWhile p := by
        simp [List.dropWhile_cons, hpa']
      have h2 : (t ++ z).dropWhile p = a :: (t ++ z) := by
        rw [← heq, h]
        rfl
      have hle := (List.dropWhile_sublist p (l := t ++ z)).length_le
      rw [h2] at hle
      simp only [List.length_cons] at hle
      omega
    simp [List.dropWhile_cons, ha]

theorem lstrip_strip (s : Str) : lstrip (strip s) = strip s := by
  unfold strip
  set u := lstrip s with hu_def
  have hu : u.dropWhile wsp = u := by
    rw [hu_def]
    exact dropWhile_dropWhile wsp s
  set v := u.reverse.dropWhile wsp with hv_def
  obtain ⟨z, hz⟩ := exists_append_dropWhile wsp u.reverse
  have huz : u = v.reverse ++ z.reverse := by
    have := congrArg List.reverse hz
    simpa using this
  unfold lstrip
  exact dropWhile_of_append_of_fixed wsp v.reverse z.reverse (by rw [← huz]; exact hu)

theorem strip_idem (s : Str) : strip (strip s) = strip s := by
  have h1 : strip (strip s) = ((lstrip (strip s)).reverse.dropWhile wsp).reverse := rfl
  rw [h1, lstrip_strip]
  show ((((lstrip s).reverse.dropWhile wsp).reverse.reverse).dropWhile wsp).reverse = strip s
  rw [List.reverse_reverse, dropWhile_dropWhile]
  rfl

theorem mem_of_mem_strip {c : Char} {s : Str} (h : c ∈ strip s) : c ∈ s := by
  unfold strip lstrip at h
  rw [List.mem_reverse] at h
  have h1 := (List.dropWhile_sublist wsp (l := (s.dropWhile wsp).reverse)).mem h
  rw [List.mem_reverse] at h1
  exact (List.dropWhile_sublist wsp (l := s)).mem h1

theorem ofNat_toNat_ascii : ∀ n, n < 123 → 97 ≤ n → (Char.ofNat n).toNat = n := by decide

theorem wsp_ofNat_ascii : ∀ n, n < 123 → 97 ≤ n → wsp (Char.ofNat n) = false := by decide

theorem wsp_toNat_le (c : Char) (h : wsp c = true) : c.toNat ≤ 32 := by
  simp only [wsp, Bool.or_eq_true, decide_eq_true_eq] at h
  rcases h with ((((h | h) | h) | h) | h) | h <;> subst h <;> decide

theorem toLower_toLower (c : Char) : Char.toLower (Char.toLower c) = Char.toLower c := by
  by_cases h : 65 ≤ c.toNat ∧ c.toNat ≤ 90
  · have h1 : Char.toLower c = Char.ofNat (c.toNat + 32) := by
      simp [Char.toLower]
      omega
    have h2 : (Char.ofNat (c.toNat + 32)).toNat = c.toNat + 32 :=
      ofNat_toNat_ascii (c.toNat + 32) (by omega) (by omega)
    rw [h1]
    simp [Char.toLower, h2]
    omega
  · have h1 : Char.toLower c = c := by
      simp [Char.toLower]
      omega
    rw [h1, h1]

theorem wsp_toLower (c : Char) : wsp (Char.toLower c) = wsp c := by
  by_cases h : 65 ≤ c.toNat ∧ c.toNat ≤ 90
  · have h1 : Char.toLower c = Char.ofNat (c.toNat + 32) := by
      simp [Char.toLower]
      omega
    have h2 : wsp (Char.ofNat (c.toNat + 32)) = false :=
      wsp_ofNat_ascii (c.toNat + 32) (by omega) (by omega)
    have h3 : wsp c = false := by
      by_contra hc
      have hc' : wsp c = true := by revert hc; cases wsp c <;> simp
      have := wsp_toNat_le c hc'
      omega
    rw [h1, h2, h3]
  · have h1 : Char.toLower c = c := by
      simp [Char.toLower]
      omega
    rw [h1]

theorem lower_idem (s : Str) : lower (lower s) = lower s := by
  induction s with
  | nil => rfl
  | cons a t ih =>
    show Char.toLower (Char.toLower a) :: lower (lower t) = Char.toLower a :: lower t
    rw [toLower_toLower, ih]

theorem dropWhile_lower_comm (l : Str) :
    (l.map Char.toLower).dropWhile wsp = (l.dropWhile wsp).map Char.toLower := by
  induction l with
  | nil => rfl
  | cons a t ih =>
    by_cases h : wsp a
    · have h2 : wsp (Char.toLower a) = true := by rw [wsp_toLower]; exact h
      simp [List.dropWhile_cons, h, h2, ih]
    · have h' : wsp a = false := by revert h; cases wsp a <;> simp
      have h2 : wsp (Char.toLower a) = false := by rw [wsp_toLower]; exact h'
      simp [List.dropWhile_cons, h', h2]

theorem lower_strip_comm (s : Str) : lower (strip s) = strip (lower s) := by
  show (strip s).map Char.toLower = strip (s.map Char.toLower)
  unfold strip lstrip
  rw [dropWhile_lower_comm s, ← List.map_reverse, dropWhile_lower_comm,
    ← List.map_reverse]

theorem strip_lower_norm_idem (x : Str) :
    strip (lower (strip (lower x))) = strip (lower x) := by
  rw [lower_strip_comm, lower_idem, strip_idem]

theorem splitComma_ne_nil (s : Str) : splitComma s ≠ [] := by
  cases s with
  | nil => simp [splitComma]
  | cons c rest =>
    unfold splitComma
    cases h : splitComma rest with
    | nil => simp
    | cons a l => by_cases hc : c = ',' <;> simp [hc]

theorem splitComma_cons (c : Char) (rest a : Str) (l : List Str)
    (hs : splitComma rest = a :: l) :
    splitComma (c :: rest) = if c = ',' then [] :: a :: l else (c :: a) :: l := by
  unfold splitComma
  rw [hs]

theorem splitComma_mem_no_comma {t : Str} {s : Str} (h : t ∈ splitComma s) :
    ',' ∉ t := by
  induction s generalizing t with
  | nil =>
    rw [show splitComma [] = [[]] from rfl, List.mem_singleton] at h
    subst h
    simp
  | cons c rest ih =>
    obtain ⟨a, l, hs⟩ : ∃ a l, splitComma rest = a :: l := by
      cases hsp : splitComma rest with
      | nil => exact absurd hsp (splitComma_ne_nil rest)
      | cons a l => exact ⟨a, l, rfl⟩
    have hal : ∀ u, u ∈ a :: l → ',' ∉ u := fun u hu => ih (hs ▸ hu)
    rw [splitComma_cons c rest a l hs] at h
    by_cases hc : c = ','
    · rw [if_pos hc] at h
      rcases List.mem_cons.mp h with h1 | h1
      · subst h1; simp
      · exact hal t h1
    · rw [if_neg hc] at h
      rcases List.mem_cons.mp h with h1 | h1
      · subst h1
        intro hm
        rcases List.mem_cons.mp hm with h2 | h2
        · exact hc h2.symm
        · exact hal a (List.mem_cons_self a l) h2
      · exact hal t (List.mem_cons_of_mem a h1)

theorem splitComma_of_no_comma {s : Str} (h : ',' ∉ s) : splitComma s = [s] := by
  induction s with
  | nil => rfl
  | cons c rest ih =>
    have hc : ¬ c = ',' := fun hc => h (hc ▸ List.mem_cons_self c rest)
    have hr : ',' ∉ rest := fun hm => h (List.mem_cons_of_mem c hm)
    rw [splitComma_cons c rest rest [] (ih hr), if_neg hc]

theorem strip_no_comma {s : Str} (h : ',' ∉ s) : ',' ∉ strip s :=
  fun hm => h (mem_of_mem_strip hm)

/-! ### Helper lemmas: structure of `clean_data` -/

theorem flatMap_cleanRow_filter (df : List RawRecord) :
    df.flatMap cleanRow =
      (df.filter (fun r => r.releaseDate.isSome)).flatMap cleanRow := by
  induction df with
  | nil => rfl
  | cons r t ih =>
    cases hr : r.releaseDate with
    | none =>
      have h0 : cleanRow r = [] := by unfold cleanRow; rw [hr]
      simp [List.flatMap_cons, List.filter_cons, hr, h0, ih]
    | some d =>
      simp [List.flatMap_cons, List.filter_cons, hr, ih]

theorem mem_clean_data {rec : CanonicalRecord} {df : List RawRecord} :
    rec ∈ clean_data df ↔ rec ∈ df.flatMap cleanRow :=
  (List.perm_insertionSort recLE (df.flatMap cleanRow)).mem_iff

theorem cleanRow_none {r : RawRecord} (hr : r.releaseDate = none) :
    cleanRow r = [] := by
  unfold cleanRow
  rw [hr]

theorem cleanRow_some {r : RawRecord} {d : Date} (hr : r.releaseDate = some d) :
    cleanRow r = ((splitComma (r.genre.getD unknownCap)).map strip).map (fun g =>
      { title := r.title
        releaseDate := d
        popularity := r.popularity.getD 0
        voteCount := r.voteCount.getD 0
        voteAverage := r.voteAverage.getD 0
        originalLanguage := strip (lower (r.originalLanguage.getD unknownLow))
        genre := if g = [] then unknownCap else g }) := by
  unfold cleanRow
  rw [hr]

theorem mem_cleanRow {rec : CanonicalRecord} {r : RawRecord} :
    rec ∈ cleanRow r ↔
      ∃ d, r.releaseDate = some d ∧
        ∃ seg ∈ splitComma (r.genre.getD unknownCap),
          rec = { title := r.title
                  releaseDate := d
                  popularity := r.popularity.getD 0
                  voteCount := r.voteCount.getD 0
                  voteAverage := r.voteAverage.getD 0
                  originalLanguage :=
                    strip (lower (r.originalLanguage.getD unknownLow))
                  genre := if strip seg = [] then unknownCap else strip seg } := by
  cases hr : r.releaseDate with
  | none =>
    rw [cleanRow_none hr]
    simp [hr]
  | some d =>
    rw [cleanRow_some hr, List.map_map, List.mem_map]
    constructor
    · rintro ⟨seg, hseg, rfl⟩
      exact ⟨d, rfl, seg, hseg, rfl⟩
    · rintro ⟨d1, hd1, seg, hseg, rfl⟩
      have hdd : d = d1 := Option.some_inj.mp hd1
      subst hdd
      exact ⟨seg, hseg, rfl⟩

theorem clean_data_invariants {rec : CanonicalRecord} {df : List RawRecord}
    (h : rec ∈ clean_data df) :
    strip (lower rec.originalLanguage) = rec.originalLanguage ∧
      rec.genre ≠ [] ∧ strip rec.genre = rec.genre ∧ ',' ∉ rec.genre := by
  rw [mem_clean_data] at h
  obtain ⟨r, _, hrec⟩ := List.mem_flatMap.mp h
  rw [mem_cleanRow] at hrec
  obtain ⟨d, _, seg, hseg, rfl⟩ := hrec
  refine ⟨strip_lower_norm_idem _, ?_, ?_, ?_⟩
  · show (if strip seg = [] then unknownCap else strip seg) ≠ []
    by_cases hcond : strip seg = []
    · rw [if_pos hcond]
      decide
    · rw [if_neg hcond]
      exact hcond
  · show strip (if strip seg = [] then unknownCap else strip seg) =
      (if strip seg = [] then unknownCap else strip seg)
    by_cases hcond : strip seg = []
    · rw [if_pos hcond]
      decide
    · rw [if_neg hcond]
      exact strip_idem seg
  · show ',' ∉ (if strip seg = [] then unknownCap else strip seg)
    by_cases hcond : strip seg = []
    · rw [if_pos hcond]
      decide
    · rw [if_neg hcond]
      exact strip_no_comma (splitComma_mem_no_comma hseg)

theorem cleanRow_toRaw {c : CanonicalRecord}
    (hlang : strip (lower c.originalLanguage) = c.originalLanguage)
    (hg1 : c.genre ≠ []) (hg2 : strip c.genre = c.genre) (hg3 : ',' ∉ c.genre) :
    cleanRow (toRaw c) = [c] := by
  show ((splitComma c.genre).map strip).map _ = [c]
  rw [splitComma_of_no_comma hg3]
  simp only [List.map_cons, List.map_nil, hg2]
  rw [if_neg hg1]
  show [{ title := c.title
          releaseDate := c.releaseDate
          popularity := c.popularity
          voteCount := c.voteCount
          voteAverage := c.voteAverage
          originalLanguage := strip (lower c.originalLanguage)
          genre := c.genre }] = [c]
  rw [hlang]

theorem flatMap_eq_self_of_singleton {l : List CanonicalRecord}
    {f : CanonicalRecord → List CanonicalRecord}
    (h : ∀ c ∈ l, f c = [c]) : l.flatMap f = l := by
  induction l with
  | nil => rfl
  | cons a t ih =>
    rw [List.flatMap_cons, h a (List.mem_cons_self a t),
      ih (fun c hc => h c (List.mem_cons_of_mem a hc))]
    rfl

/-! ### Helper lemmas: deduplication, truncation and sorting -/

theorem dedupByKey_sublist (key : α → Str) (seen : List Str) (l : List α) :
    List.Sublist (dedupByKey key seen l) l := by
  induction l generalizing seen with
  | nil => exact List.Sublist.refl []
  | cons r t ih =>
    unfold dedupByKey
    by_cases h : key r ∈ seen
    · rw [if_pos h]
      exact List.Sublist.cons r (ih seen)
    · rw [if_neg h]
      exact List.Sublist.cons₂ r (ih (key r :: seen))

theorem dedupByKey_keys_nodup (key : α → Str) (seen : List Str) (l : List α) :
    ((dedupByKey key seen l).map key).Nodup ∧
      ∀ x ∈ (dedupByKey key seen l).map key, x ∉ seen := by
  induction l generalizing seen with
  | nil => exact ⟨List.nodup_nil, by simp [dedupByKey]⟩
  | cons r t ih =>
    unfold dedupByKey
    by_cases h : key r ∈ seen
    · rw [if_pos h]
      exact ih seen
    · rw [if_neg h]
      obtain ⟨hnd, hfresh⟩ := ih (key r :: seen)
      constructor
      · rw [List.map_cons, List.nodup_cons]
        exact ⟨fun hm => (hfresh _ hm) (List.mem_cons_self _ _), hnd⟩
      · intro x hx hxseen
        rw [List.map_cons, List.mem_cons] at hx
        rcases hx with rfl | hx
        · exact h hxseen
        · exact hfresh x hx (List.mem_cons_of_mem _ hxseen)

theorem dfHead_sublist (n : Int) (l : List α) : List.Sublist (dfHead n l) l := by
  unfold dfHead
  by_cases h : 0 ≤ n
  · rw [if_pos h]
    exact List.take_sublist _ _
  · rw [if_neg h]
    exact List.take_sublist _ _

/-! ### Helper lemmas: grouped distinct-title counts -/

theorem list_toFinset_dedup {κ : Type} [DecidableEq κ] (l : List κ) :
    l.dedup.toFinset = l.toFinset := by
  ext x
  simp [List.mem_dedup]

theorem grouped_distinct_count_sum {κ : Type} [DecidableEq κ]
    (key : CanonicalRecord → κ) (df : List CanonicalRecord) :
    (((df.map key).dedup).map (fun k =>
        ((df.filter (fun r => decide (key r = k))).map
          (fun r => r.title)).dedup.length)).sum =
      (df.map (fun r => (key r, r.title))).dedup.length := by
  classical
  set g : κ → Nat := fun k =>
    ((df.filter (fun r => decide (key r = k))).map (fun r => r.title)).dedup.length
    with hg
  set S : Finset (κ × Str) := (df.map (fun r => (key r, r.title))).toFinset with hS
  set T : Finset κ := (df.map key).toFinset with hT
  have hRHS : (df.map (fun r => (key r, r.title))).dedup.length = S.card :=
    (List.card_toFinset _).symm
  have hLHS : (((df.map key).dedup).map g).sum = T.sum g := by
    rw [← List.sum_toFinset g (List.nodup_dedup _), list_toFinset_dedup]
  rw [hRHS, hLHS]
  have hfib : ∀ p ∈ S, p.1 ∈ T := by
    intro p hp
    rw [hS, List.mem_toFinset, List.mem_map] at hp
    obtain ⟨r, hr, hpr⟩ := hp
    rw [hT, List.mem_toFinset, List.mem_map]
    exact ⟨r, hr, by rw [← hpr]⟩
  rw [Finset.card_eq_sum_card_fiberwise hfib]
  apply Finset.sum_congr rfl
  intro k _
  have himg : S.filter (fun p => p.1 = k) =
      (((df.filter (fun r => decide (key r = k))).map
        (fun r => r.title)).toFinset).image (fun t => (k, t)) := by
    ext p
    simp only [Finset.mem_filter, hS, List.mem_toFinset, List.mem_map,
      List.mem_filter, Finset.mem_image, decide_eq_true_eq]
    constructor
    · rintro ⟨⟨r, hr, hpr⟩, hpk⟩
      subst hpr
      have hk : key r = k := hpk
      exact ⟨r.title, ⟨r, ⟨hr, hk⟩, rfl⟩, by rw [hk]⟩
    · rintro ⟨t, ⟨r, ⟨hr, hk⟩, ht⟩, hp⟩
      subst hp
      subst ht
      exact ⟨⟨r, hr, by rw [hk]⟩, rfl⟩
  rw [himg, Finset.card_image_of_injective _ (fun a b hab => (Prod.ext_iff.mp hab).2),
    List.card_toFinset]

/-! ### Claim C1 -/

/-- C1: the spec requires the `v + m = 0` edge case of the weighted-rating
formula to be guarded explicitly, with the record's unweighted
`vote_average` as the result.  `calculate_weighted_rating` has no such
guard: on the filtered set `[zeroVoteRec]` (reachable via
`get_top_rated_movies` with `min_votes = 0`), `v = m = 0` and the division
`0/0` produces a non-finite value (`none` in this model) instead of the
record's `vote_average` (`some 7`); the non-finite value propagates into the
query result. -/
theorem c1_unguarded_zero_division :
    calculate_weighted_rating [zeroVoteRec] = [none] ∧
      (get_top_rated_movies [zeroVoteRec] 10 0).map
        (fun r => r.weightedRating) = [none] ∧
      (none : Option ℚ) ≠ some zeroVoteRec.voteAverage := by
  refine ⟨by with_unfolding_all rfl, by with_unfolding_all rfl, by decide⟩

/-! ### Claim C2 -/

/-- C2 counterexample: a raw genre field `"Action,Action"` holds exactly one
distinct genre, yet `clean_data` produces two records for the row — the
explosion is per comma-separated segment, not per distinct genre. -/
theorem c2_counterexample :
    (((splitComma (dupGenreRow.genre.getD unknownCap)).map strip).dedup).length
        = 1 ∧
      (clean_data [dupGenreRow]).length = 2 := by
  refine ⟨by decide, by decide⟩

/-- C2 amended: a raw row that survives the date filter produces exactly one
`CanonicalRecord` per comma-separated segment of its genre field (which
equals the number of distinct genres only when the segments are pairwise
distinct); all these records share identical non-genre fields, and every
genre segment that is empty after trimming is replaced by the sentinel
`"Unknown"` (so no record carries an empty genre). -/
theorem c2_amended_per_segment_explosion (r : RawRecord) (d : Date)
    (hd : r.releaseDate = some d) :
    (clean_data [r]).length = (splitComma (r.genre.getD unknownCap)).length ∧
      ∀ rec ∈ clean_data [r],
        rec.title = r.title ∧ rec.releaseDate = d ∧
        rec.popularity = r.popularity.getD 0 ∧
        rec.voteCount = r.voteCount.getD 0 ∧
        rec.voteAverage = r.voteAverage.getD 0 ∧
        rec.originalLanguage =
          strip (lower (r.originalLanguage.getD unknownLow)) ∧
        rec.genre ≠ [] ∧
        ∃ seg ∈ splitComma (r.genre.getD unknownCap),
          rec.genre = if strip seg = [] then unknownCap else strip seg := by
  constructor
  · have hlen : (clean_data [r]).length = ([r].flatMap cleanRow).length :=
      (List.perm_insertionSort recLE ([r].flatMap cleanRow)).length_eq
    rw [hlen]
    show (cleanRow r ++ []).length = _
    rw [List.append_nil, cleanRow_some hd, List.length_map, List.length_map]
  · intro rec hrec
    have hg := (clean_data_invariants hrec).2.1
    rw [mem_clean_data] at hrec
    obtain ⟨r1, hr1, hmem⟩ := List.mem_flatMap.mp hrec
    have hr1r : r1 = r := by
      rcases List.mem_cons.mp hr1 with h | h
      · exact h
      · exact absurd h (List.not_mem_nil r1)
    subst hr1r
    rw [mem_cleanRow] at hmem
    obtain ⟨d1, hd1, seg, hseg, rfl⟩ := hmem
    have hdd : d = d1 := by
      rw [hd] at hd1
      exact Option.some_inj.mp hd1
    subst hdd
    exact ⟨rfl, rfl, rfl, rfl, rfl, rfl, hg, seg, hseg, rfl⟩

/-- C2 amended, witnessed at `dupGenreRow`. -/
theorem c2_amended_witness :
    (clean_data [dupGenreRow]).length =
      (splitComma (dupGenreRow.genre.getD unknownCap)).length :=
  (c2_amended_per_segment_explosion dupGenreRow ⟨2020, 1, 1⟩ rfl).1

/-! ### Claim C3 -/

/-- C3 counterexample: the analytics engine does not reject non-positive
limits — it computes and returns a result.  With `limit = 0` both ranking
queries return an empty frame, and with `limit = -1`
`get_top_popular_movies` returns all but the last deduplicated row
(two of the three rows of `sampleTable`), exactly pandas `head` slicing. -/
theorem c3_counterexample :
    get_top_popular_movies sampleTable 0 = [] ∧
      (get_top_popular_movies sampleTable (-1)).length = 2 ∧
      get_top_rated_movies sampleTable 0 500 = [] ∧
      get_top_rated_movies sampleTable 0 0 = [] := by
  refine ⟨by decide, by decide, by decide, by with_unfolding_all rfl⟩

/-- C3 amended: non-positive limits are rejected at the HTTP boundary
(FastAPI `Query(ge=1)` in `src/api/routes.py`), not by the engine; for
`limit ≤ 0` the engine computes a result: the empty list for `limit = 0`,
and, for `limit = -k < 0`, all but the last `k` deduplicated rows
(pandas `head` semantics). -/
theorem c3_amended_boundary_rejects (df : List CanonicalRecord) (l : Int)
    (mv : ℚ) (hl : l ≤ 0) :
    route_most_popular df l = Except.error validationMsg ∧
      route_top_rated df l mv = Except.error validationMsg ∧
      (l = 0 → get_top_popular_movies df l = [] ∧
        get_top_rated_movies df l mv = []) ∧
      (l < 0 → (get_top_popular_movies df l).length =
        (dedupByKey (fun r => r.title) [] (List.insertionSort popGe df)).length
          - (-l).toNat) := by
  have hval : queryLimitValid l = false := by
    simp only [queryLimitValid, Bool.and_eq_false_iff, decide_eq_false_iff_not,
      not_le]
    left
    omega
  refine ⟨?_, ?_, ?_, ?_⟩
  · unfold route_most_popular
    rw [hval]
    rfl
  · unfold route_top_rated
    rw [hval]
    rfl
  · intro hl0
    subst hl0
    constructor
    · rfl
    · unfold get_top_rated_movies
      by_cases hf :
          (df.filter (fun r => decide (mv ≤ r.voteCount))).isEmpty
      · rw [if_pos hf]
      · rw [if_neg hf]
        rfl
  · intro hneg
    unfold get_top_popular_movies dfHead
    rw [if_neg (by omega : ¬ (0 : Int) ≤ l)]
    rw [List.length_take]
    omega

/-- C3 amended, witnessed at `sampleTable` with `limit = 0`. -/
theorem c3_amended_witness :
    route_most_popular sampleTable 0 = Except.error validationMsg :=
  (c3_amended_boundary_rejects sampleTable 0 0 (by decide)).1

/-! ### Claim C4 -/

/-- C4 counterexample: a raw popularity cell holding `-1` parses under
`pd.to_numeric` and is preserved, so a canonical record can carry a negative
numeric field — the claim's "never negative" fails. -/
theorem c4_counterexample :
    (clean_data [negPopRow]).map (fun r => r.popularity) = [(-1 : ℚ)] ∧
      ((-1 : ℚ) < 0) := by
  refine ⟨by decide, by decide⟩

/-- C4 amended: every canonical record's numeric fields are exactly the raw
cells coerced by `getD 0` — never null, with missing/unparseable raw cells
mapping to exactly `0` — but a negative raw value is preserved as-is, so the
fields are not guaranteed non-negative. -/
theorem c4_amended_numeric_coercion (df : List RawRecord)
    (rec : CanonicalRecord) (h : rec ∈ clean_data df) :
    ∃ r ∈ df, rec.title = r.title ∧
      rec.popularity = r.popularity.getD 0 ∧
      rec.voteCount = r.voteCount.getD 0 ∧
      rec.voteAverage = r.voteAverage.getD 0 ∧
      (r.popularity = none → rec.popularity = 0) ∧
      (r.voteCount = none → rec.voteCount = 0) ∧
      (r.voteAverage = none → rec.voteAverage = 0) := by
  rw [mem_clean_data] at h
  obtain ⟨r, hr, hrec⟩ := List.mem_flatMap.mp h
  rw [mem_cleanRow] at hrec
  obtain ⟨d, hd, seg, hseg, rfl⟩ := hrec
  refine ⟨r, hr, rfl, rfl, rfl, rfl, ?_, ?_, ?_⟩
  · intro hnone
    show r.popularity.getD 0 = 0
    rw [hnone]
    rfl
  · intro hnone
    show r.voteCount.getD 0 = 0
    rw [hnone]
    rfl
  · intro hnone
    show r.voteAverage.getD 0 = 0
    rw [hnone]
    rfl

/-- C4 amended, witnessed at `negPopRow`. -/
theorem c4_amended_witness :
    ∃ r ∈ [negPopRow], negPopCleaned.title = r.title ∧
      negPopCleaned.popularity = r.popularity.getD 0 ∧
      negPopCleaned.voteCount = r.voteCount.getD 0 ∧
      negPopCleaned.voteAverage = r.voteAverage.getD 0 ∧
      (r.popularity = none → negPopCleaned.popularity = 0) ∧
      (r.voteCount = none → negPopCleaned.voteCount = 0) ∧
      (r.voteAverage = none → negPopCleaned.voteAverage = 0) :=
  c4_amended_numeric_coercion [negPopRow] negPopCleaned (by decide)

/-! ### Claim C5 -/

/-- C5: a raw row whose release date fails to parse is dropped entirely —
`clean_data` ignores such rows completely (its output is the output on the
date-valid rows alone) — while a row with a valid date is never dropped for
numeric reasons: it always contributes at least one canonical record with
its title and date. -/
theorem c5_date_filter_numeric_keep (df : List RawRecord) :
    clean_data df = clean_data (df.filter (fun r => r.releaseDate.isSome)) ∧
      ∀ r ∈ df, ∀ d, r.releaseDate = some d →
        ∃ rec ∈ clean_data df, rec.title = r.title ∧ rec.releaseDate = d := by
  constructor
  · unfold clean_data
    rw [flatMap_cleanRow_filter]
  · intro r hr d hd
    obtain ⟨seg, rest, hsplit⟩ :
        ∃ a l, splitComma (r.genre.getD unknownCap) = a :: l := by
      cases hsp : splitComma (r.genre.getD unknownCap) with
      | nil => exact absurd hsp (splitComma_ne_nil _)
      | cons a l => exact ⟨a, l, rfl⟩
    have hseg : seg ∈ splitComma (r.genre.getD unknownCap) := by
      rw [hsplit]
      exact List.mem_cons_self _ _
    refine ⟨{ title := r.title
              releaseDate := d
              popularity := r.popularity.getD 0
              voteCount := r.voteCount.getD 0
              voteAverage := r.voteAverage.getD 0
              originalLanguage :=
                strip (lower (r.originalLanguage.getD unknownLow))
              genre := if strip seg = [] then unknownCap else strip seg },
      ?_, rfl, rfl⟩
    exact mem_clean_data.mpr (List.mem_flatMap.mpr
      ⟨r, hr, mem_cleanRow.mpr ⟨d, hd, seg, hseg, rfl⟩⟩)

/-- C5, witnessed on a table holding a bad-date row and an all-numeric-failure
row: the latter still reaches the canonical output. -/
theorem c5_witness :
    ∃ rec ∈ clean_data [badDateRow, noNumRow], rec.title = noNumRow.title ∧
      rec.releaseDate = ⟨2021, 6, 1⟩ :=
  (c5_date_filter_numeric_keep [badDateRow, noNumRow]).2 noNumRow (by decide)
    ⟨2021, 6, 1⟩ rfl

/-! ### Claim C6 -/

/-- C6: for every canonical table and `limit ≥ 1`, the output of
`get_top_popular_movies` has pairwise-distinct titles, non-increasing
popularity, and at most `limit` records. -/
theorem c6_top_popular_shape (df : List CanonicalRecord) (l : Int)
    (hl : 1 ≤ l) :
    ((get_top_popular_movies df l).map (fun r => r.title)).Nodup ∧
      (get_top_popular_movies df l).Pairwise
        (fun a b => b.popularity ≤ a.popularity) ∧
      (get_top_popular_movies df l).length ≤ l.toNat := by
  unfold get_top_popular_movies
  have hsorted : (List.insertionSort popGe df).Pairwise popGe :=
    List.sorted_insertionSort popGe df
  have hded := dedupByKey_sublist (fun r : CanonicalRecord => r.title) []
    (List.insertionSort popGe df)
  have hhead := dfHead_sublist l
    (dedupByKey (fun r : CanonicalRecord => r.title) []
      (List.insertionSort popGe df))
  refine ⟨?_, ?_, ?_⟩
  · exact List.Nodup.sublist (List.Sublist.map _ hhead)
      (dedupByKey_keys_nodup (fun r : CanonicalRecord => r.title) []
        (List.insertionSort popGe df)).1
  · exact List.Pairwise.sublist (hhead.trans hded) hsorted
  · unfold dfHead
    rw [if_pos (by omega : (0 : Int) ≤ l)]
    exact List.length_take_le _ _

/-- C6, witnessed at `sampleTable` with `limit = 2`. -/
theorem c6_witness :
    ((get_top_popular_movies sampleTable 2).map (fun r => r.title)).Nodup ∧
      (get_top_popular_movies sampleTable 2).Pairwise
        (fun a b => b.popularity ≤ a.popularity) ∧
      (get_top_popular_movies sampleTable 2).length ≤ (2 : Int).toNat :=
  c6_top_popular_shape sampleTable 2 (by decide)

/-! ### Claim C7 -/

/-- C7 counterexample: a failed first load is not sticky.  `_df` stays
`none` after a failure, so the next access retries `_load_data` and succeeds
once the file is readable — contradicting "every subsequent query on the
same instance fails". -/
theorem c7_counterexample :
    dfAccess none none = (none, Except.error ()) ∧
      dfAccess (dfAccess none none).1 (some sampleTable) =
        (some sampleTable, Except.ok sampleTable) :=
  ⟨rfl, rfl⟩

/-- C7 amended: the table is loaded lazily and cached on success — once
`_df` holds a table, every access returns it without touching the file —
but a load failure is not cached: `_df` remains unset, the read is retried
on the next access, and it succeeds if the file has become readable. -/
theorem c7_amended_lazy_cache (t : List CanonicalRecord)
    (file : Option (List CanonicalRecord)) :
    dfAccess (some t) file = (some t, Except.ok t) ∧
      dfAccess none none = (none, Except.error ()) ∧
      dfAccess none (some t) = (some t, Except.ok t) :=
  ⟨rfl, rfl, rfl⟩

/-! ### Claim C8 -/

/-- C8 counterexample: on a canonical table holding one title released in
two different years (and two languages), the per-year and per-language
counts each sum to `2`, while the table has only `1` distinct title. -/
theorem c8_counterexample :
    ((get_movies_per_year kongTable).map Prod.snd).sum = 2 ∧
      ((get_language_diversity kongTable).map Prod.snd).sum = 2 ∧
      ((kongTable.map (fun r => r.title)).dedup).length = 1 := by
  refine ⟨by decide, by decide, by decide⟩

/-- C8 amended: the per-group counts of `get_movies_per_year` sum to the
number of distinct (year, title) pairs of the table, and those of
`get_language_diversity` to the number of distinct (language, title) pairs;
these equal the distinct-title count only when no title occurs under two
years (resp. languages). -/
theorem c8_amended_distinct_pairs (df : List CanonicalRecord) :
    ((get_movies_per_year df).map Prod.snd).sum =
      (df.map (fun r => (r.releaseDate.year, r.title))).dedup.length ∧
      ((get_language_diversity df).map Prod.snd).sum =
        (df.map (fun r => (r.originalLanguage, r.title))).dedup.length := by
  constructor
  · have hperm := (List.perm_insertionSort yearRowLe
      (((df.map (fun r => r.releaseDate.year)).dedup).map (fun y =>
        (y, ((df.filter (fun r => decide (r.releaseDate.year = y))).map
          (fun r => r.title)).dedup.length)))).map Prod.snd
    rw [show ((get_movies_per_year df).map Prod.snd).sum = _ from hperm.sum_eq,
      List.map_map]
    exact grouped_distinct_count_sum (fun r => r.releaseDate.year) df
  · have hperm := (List.perm_insertionSort countRowGe
      (((df.map (fun r => r.originalLanguage)).dedup).map (fun lang =>
        (lang, ((df.filter (fun r => decide (r.originalLanguage = lang))).map
          (fun r => r.title)).dedup.length)))).map Prod.snd
    rw [show ((get_language_diversity df).map Prod.snd).sum = _
        from hperm.sum_eq,
      List.map_map]
    exact grouped_distinct_count_sum (fun r => r.originalLanguage) df

/-! ### Claim C9 -/

/-- C9: `clean_data` is idempotent on its own output — re-cleaning the
canonical table's rows (every field present and already valid) reproduces
the same row multiset. -/
theorem c9_clean_idempotent (df : List RawRecord) :
    List.Perm (clean_data ((clean_data df).map toRaw)) (clean_data df) := by
  have hsing : ∀ c ∈ clean_data df, cleanRow (toRaw c) = [c] := by
    intro c hc
    obtain ⟨h1, h2, h3, h4⟩ := clean_data_invariants hc
    exact cleanRow_toRaw h1 h2 h3 h4
  have hflat : ((clean_data df).map toRaw).flatMap cleanRow = clean_data df := by
    rw [List.flatMap_map]
    exact flatMap_eq_self_of_singleton hsing
  show List.Perm
    (List.insertionSort recLE (((clean_data df).map toRaw).flatMap cleanRow))
    (clean_data df)
  rw [hflat]
  exact List.perm_insertionSort recLE (clean_data df)

/-! ### Claim C10 -/

/-- C10 counterexample: with `limit = 1`, the title set of
`get_top_rated_movies wrTable 1 50` is `{A}`, but the `minVotes = 0` output
restricted to `vote_count ≥ 50` is empty — because `m` and `C` are
recomputed from each filtered set, the truncated outputs are not in subset
relation. -/
theorem c10_counterexample :
    (get_top_rated_movies wrTable 1 50).map (fun r => r.title) =
        ["A".toList] ∧
      ((get_top_rated_movies wrTable 1 0).filter
        (fun r => decide ((50 : ℚ) ≤ r.voteCount))).map (fun r => r.title) =
        [] := by
  refine ⟨by with_unfolding_all rfl, by with_unfolding_all rfl⟩

/-- C10 amended: `get_top_rated_movies` is a pure function of the table and
its arguments, so repeated calls with identical arguments agree; and for
`minVotes = mv > 0` the filtered record population equals the
`minVotes = 0` population restricted to `vote_count ≥ mv` (the populations,
not the truncated outputs, are monotone). -/
theorem c10_amended_stability_and_population (df : List CanonicalRecord)
    (l : Int) (mv : ℚ) (hmv : 0 < mv) :
    get_top_rated_movies df l mv = get_top_rated_movies df l mv ∧
      df.filter (fun r => decide (mv ≤ r.voteCount)) =
        (df.filter (fun r => decide ((0 : ℚ) ≤ r.voteCount))).filter
          (fun r => decide (mv ≤ r.voteCount)) := by
  refine ⟨rfl, ?_⟩
  rw [List.filter_filter]
  apply List.filter_congr
  intro r _
  by_cases h : mv ≤ r.voteCount
  · have h0 : (0 : ℚ) ≤ r.voteCount := le_trans (le_of_lt hmv) h
    simp [h, h0]
  · simp [h]

/-- C10 amended, witnessed at `wrTable` with `mv = 50`. -/
theorem c10_amended_witness :
    wrTable.filter (fun r => decide ((50 : ℚ) ≤ r.voteCount)) =
      (wrTable.filter (fun r => decide ((0 : ℚ) ≤ r.voteCount))).filter
        (fun r => decide ((50 : ℚ) ≤ r.voteCount)) :=
  (c10_amended_stability_and_population wrTable 1 50 (by decide)).2

example :
    clean_data
      [{ title := "A".toList, releaseDate := some ⟨2020, 1, 1⟩,
         popularity := some 10, voteCount := some 100, voteAverage := some 7,
         originalLanguage := some "en".toList,
         genre := some "Action, Drama".toList }] =
      [{ title := "A".toList, releaseDate := ⟨2020, 1, 1⟩,
         popularity := 10, voteCount := 100, voteAverage := 7,
         originalLanguage := "en".toList, genre := "Action".toList },
       { title := "A".toList, releaseDate := ⟨2020, 1, 1⟩,
         popularity := 10, voteCount := 100, voteAverage := 7,
         originalLanguage := "en".toList, genre := "Drama".toList }] := by decide
